import Mathlib

set_option maxRecDepth 20000

/-!
Shallow embedding of the ai-voice-agent-evaluator repository (three Python
scripts: `qa_bot.py`, `extra.py`, `main.py`) and proofs about the claims of
its specification.

Text is modelled as `List Char` (Python strings are sequences of code
points).  External effectful collaborators (HTTP download, the Whisper /
Google speech recognizers, the Ollama LLM, the Slack client) are modelled
as oracle fields of environment structures: each oracle gives the result
that the corresponding call would return, including a raised exception
(`Except.error`).  A processing run is then a pure function from its
environment to a trace of the side effects it emits.
-/

/-- Error values carried by modelled Python exceptions (the `str(e)` text). -/
abbrev Err := List Char

/-- ASCII whitespace, as stripped by Python `str.strip()` and matched by the
regex class `\s` (Python also strips some exotic Unicode whitespace; the
repository only ever deals in ASCII here). -/
def isPySpace (c : Char) : Bool :=
  c == ' ' || c == '\t' || c == '\n' || c == '\r' || c == '\x0b' || c == '\x0c'

/-- Python `str.strip()`: drop whitespace from both ends (trailing first,
then leading; the order is immaterial). -/
def pyStrip (s : List Char) : List Char :=
  ((s.reverse.dropWhile isPySpace).reverse).dropWhile isPySpace

/-- Python `sep.join(parts)`. -/
def pyJoin (sep : List Char) : List (List Char) → List Char
  | [] => []
  | [t] => t
  | t :: ts => t ++ sep ++ pyJoin sep ts

/-- Python `"{t[:1500]}{... if len(t) > 1500 else ''}"`: a 1500-character
excerpt with an ellipsis marker when truncated. -/
def truncate1500 (t : List Char) : List Char :=
  t.take 1500 ++ (if t.length > 1500 then "...".data else [])

/-- One Slack side effect emitted by a processing run. -/
inductive Effect where
  | reactAdd (name : List Char)
  | reactRemove (name : List Char)
  | reply (text : List Char) (threadTs : List Char)
  | unlink
deriving DecidableEq

/-- Names passed to `client.reactions_add` within an effect list, in order. -/
def reactAdds : List Effect → List (List Char)
  | [] => []
  | Effect.reactAdd n :: es => n :: reactAdds es
  | _ :: es => reactAdds es

/-- The `(text, thread_ts)` pairs passed to `say` within an effect list. -/
def repliesOf : List Effect → List (List Char × List Char)
  | [] => []
  | Effect.reply t ts :: es => (t, ts) :: repliesOf es
  | _ :: es => repliesOf es

/-- Python `s.startswith(pat)` on code-point sequences. -/
def strStartsWith : List Char → List Char → Bool
  | [], _ => true
  | _ :: _, [] => false
  | a :: as, b :: bs => a == b && strStartsWith as bs

/-- Python `pat in s`: contiguous-substring test on code-point sequences. -/
def strContains (pat : List Char) : List Char → Bool
  | [] => strStartsWith pat []
  | c :: t => strStartsWith pat (c :: t) || strContains pat t

/-- The shared loop body of both `extract_grade_emojis` functions:
`for icon, emoji_name in MAP.items(): if icon in analysis: found.append(emoji_name)`. -/
def extractAux (analysis : List Char) : List (List Char × List Char) → List (List Char)
  | [] => []
  | p :: rest =>
    if strContains p.1 analysis then p.2 :: extractAux analysis rest
    else extractAux analysis rest

namespace QaBot

/-- The `GRADE_EMOJI_MAP` dict of `qa_bot.py`, in insertion order. -/
def GRADE_EMOJI_MAP : List (List Char × List Char) :=
  [("↗️".data, "arrow_upper_right".data),
   ("💚".data, "green_heart".data),
   ("🔥".data, "fire".data),
   ("💛".data, "yellow_heart".data),
   ("🧡".data, "orange_heart".data),
   ("❤️".data, "heart".data),
   ("😡".data, "rage".data),
   ("👂".data, "ear_with_hearing_aid".data),
   ("❌".data, "x".data)]

/-- `qa_bot.extract_grade_emojis`. -/
def extract_grade_emojis (analysis : List Char) : List (List Char) :=
  extractAux analysis GRADE_EMOJI_MAP

end QaBot

namespace Extra

/-- The `GRADE_EMOJI_MAP` dict of `extra.py`, in insertion order. -/
def GRADE_EMOJI_MAP : List (List Char × List Char) :=
  [("💚".data, "green_heart".data),
   ("💛".data, "yellow_heart".data),
   ("🧡".data, "orange_heart".data),
   ("❤️".data, "heart".data),
   ("😡".data, "rage".data),
   ("↗️".data, "arrow_upper_right".data)]

/-- `extra.extract_grade_emojis`. -/
def extract_grade_emojis (analysis : List Char) : List (List Char) :=
  extractAux analysis GRADE_EMOJI_MAP

end Extra

namespace QaBot

/-! WAV URL extraction, `qa_bot.py` lines 91-99.

`extract_wav_urls` first runs
`re.findall(r'<(https?://[^|>]+\.wav)[|>]', text, re.IGNORECASE)`
and, only when that yields nothing, falls back to
`re.findall(r'https?://[^\s<>|]+\.wav', text, re.IGNORECASE)`.
The two patterns are embedded as executable matchers with Python `re`
semantics: `findall` scans left to right for non-overlapping matches; at a
given start position the match is found by greedy repetition with
backtracking. -/

/-- Case-insensitive character comparison (`re.IGNORECASE`). -/
def ciEq (a b : Char) : Bool := a.toLower == b.toLower

/-- Case-insensitive literal prefix test. -/
def ciPrefixOf : List Char → List Char → Bool
  | [], _ => true
  | _ :: _, [] => false
  | a :: as, b :: bs => ciEq a b && ciPrefixOf as bs

/-- Case-insensitive substring test (used only in theorem statements about
the extractor, mirroring what `re.IGNORECASE` can ever match). -/
def containsCI (pat : List Char) : List Char → Bool
  | [] => ciPrefixOf pat []
  | c :: t => ciPrefixOf pat (c :: t) || containsCI pat t

/-- The literal `\.wav` of both patterns. -/
def wavLit : List Char := ".wav".data

/-- Matches `https?://` at the head of the input (case-insensitively),
returning the number of characters consumed.  The optional `s?` is greedy:
the branch consuming `s` is tried first, as the regex engine does. -/
def matchScheme (s : List Char) : Option Nat :=
  if ciPrefixOf "http".data s then
    let rest := s.drop 4
    (match rest with
     | c :: r2 => if ciEq c 's' && ciPrefixOf "://".data r2 then some 8 else none
     | [] => none).orElse
    (fun _ => if ciPrefixOf "://".data rest then some 7 else none)
  else none

/-- Greedy `+` with backtracking: try to let the repeated class consume
`n, n-1, …, 1` characters, accepting the first count after which the
continuation `k` matches; returns the total number of characters consumed. -/
def plusTry (k : List Char → Option Nat) (s : List Char) : Nat → Option Nat
  | 0 => none
  | j + 1 =>
    match k (s.drop (j + 1)) with
    | some r => some (j + 1 + r)
    | none => plusTry k s j

/-- `⟨class⟩+` followed by continuation `k`, greedy with backtracking: the
repetition can consume at most the maximal run of characters satisfying `p`
at the head of `s`, and the engine tries the longest count first. -/
def plusBacktrack (p : Char → Bool) (k : List Char → Option Nat) (s : List Char) : Option Nat :=
  plusTry k s ((s.takeWhile p).length)

/-- Single character from an explicit class (`[|>]`). -/
def matchCharSet (cs : List Char) (s : List Char) : Option Nat :=
  match s with
  | [] => none
  | c :: _ => if cs.contains c then some 1 else none

/-- Case-insensitive literal. -/
def matchLitCI (lit s : List Char) : Option Nat :=
  if ciPrefixOf lit s then some lit.length else none

/-- One attempt of `<(https?://[^|>]+\.wav)[|>]` at the head of `s`:
on success returns the total match length and the capture group (the
original text from after `<` up to and including `.wav`). -/
def matchSlackAt (s : List Char) : Option (Nat × List Char) :=
  match s with
  | [] => none
  | c :: rest =>
    if c = '<' then
    match matchScheme rest with
    | none => none
    | some schemeLen =>
      match plusBacktrack (fun c => !(c == '|' || c == '>'))
          (fun t =>
            match matchLitCI wavLit t with
            | none => none
            | some w =>
              match matchCharSet ['|', '>'] (t.drop w) with
              | none => none
              | some d => some (w + d))
          (rest.drop schemeLen) with
      | none => none
      | some bodyLen => some (1 + schemeLen + bodyLen, rest.take (schemeLen + bodyLen - 1))
    else none

/-- One attempt of `https?://[^\s<>|]+\.wav` at the head of `s`:
on success returns the match length. -/
def matchBareAt (s : List Char) : Option Nat :=
  match matchScheme s with
  | none => none
  | some schemeLen =>
    match plusBacktrack (fun c => !(isPySpace c || c == '<' || c == '>' || c == '|'))
        (fun t => matchLitCI wavLit t) (s.drop schemeLen) with
    | none => none
    | some bodyLen => some (schemeLen + bodyLen)

/-- `re.findall` for the Slack-markup pattern, collecting capture groups.
`fuel` bounds the scan (every step consumes at least one character). -/
def findallSlackAux : Nat → List Char → List (List Char)
  | 0, _ => []
  | fuel + 1, s =>
    match matchSlackAt s with
    | some (len, grp) => grp :: findallSlackAux fuel (s.drop len)
    | none =>
      match s with
      | [] => []
      | _ :: t => findallSlackAux fuel t

/-- `re.findall(r'<(https?://[^|>]+\.wav)[|>]', text, re.IGNORECASE)`. -/
def findallSlack (s : List Char) : List (List Char) := findallSlackAux s.length s

/-- `re.findall` for the bare pattern, collecting whole matches. -/
def findallBareAux : Nat → List Char → List (List Char)
  | 0, _ => []
  | fuel + 1, s =>
    match matchBareAt s with
    | some len => s.take len :: findallBareAux fuel (s.drop len)
    | none =>
      match s with
      | [] => []
      | _ :: t => findallBareAux fuel t

/-- `WAV_URL_PATTERN.findall(text)`. -/
def findallBare (s : List Char) : List (List Char) := findallBareAux s.length s

/-- `qa_bot.extract_wav_urls`. -/
def extract_wav_urls (text : List Char) : List (List Char) :=
  let slack_links := findallSlack text
  if !slack_links.isEmpty then slack_links else findallBare text

end QaBot

namespace QaBot

/-! Configuration, event handling and the processing pipeline of `qa_bot.py`.

`ANALYZE_ONLY` is a module-level constant (`True` in the checked-in
source); the spec treats the log-only/production toggle as configuration,
so it is modelled as an environment field covering both values.  The Slack
`client` / `say` objects are modelled by availability flags plus result
oracles; reaction failures are swallowed by the source
(`try/except: pass`), so a reaction call is recorded as an attempted
effect with no failure oracle. -/

/-- Channel-restriction sanitization, `qa_bot.py` line 45-46:
`_raw_channel if _raw_channel.startswith("C") and len(_raw_channel) > 5 else ""`. -/
def sanitize_channel (raw : List Char) : List Char :=
  if strStartsWith "C".data raw = true ∧ raw.length > 5 then raw else []

/-- The fields of a Slack message event that `qa_bot.handle_message` reads. -/
structure MsgEvent where
  channel : List Char
  user : List Char
  text : List Char
  ts : List Char

/-- `qa_bot.handle_message`, reduced to its observable decision: the list of
WAV URLs it hands to `process_wav_url` (the source passes only
`wav_urls[0]`). -/
def handle_message (qaChannelId : List Char) (ev : MsgEvent) : List (List Char) :=
  if qaChannelId ≠ [] ∧ ev.channel ≠ qaChannelId then []
  else
    match extract_wav_urls ev.text with
    | [] => []
    | u :: _ => [u]

/-- The message scan of `process_latest_message`: walk the fetched history
(newest first) and start one run for the first message carrying a WAV URL. -/
def firstWavRun : List MsgEvent → List (List Char)
  | [] => []
  | m :: rest =>
    match extract_wav_urls m.text with
    | [] => firstWavRun rest
    | u :: _ => [u]

/-- `qa_bot.process_latest_message`: fetch the last 20 messages
(`conversations_history(channel=channel_id, limit=20)`, errors caught and
logged) and replay the first match.  Returns the URLs handed to
`process_wav_url`. -/
def process_latest_message (fetch : List Char → Nat → Except Err (List MsgEvent))
    (channelId : List Char) : List (List Char) :=
  match fetch channelId 20 with
  | Except.error _ => []
  | Except.ok messages => firstWavRun messages

/-- Oracle results for one `process_wav_url` run. -/
structure QaEnv where
  analyzeOnly : Bool
  hasClient : Bool
  hasSay : Bool
  downloadR : Except Err Unit
  transcribeR : Except Err (List Char)
  analyzeR : Except Err (List Char)
  sayR : Except Err Unit

/-- Observable outcome of one `process_wav_url` run: emitted Slack effects
in order, whether `analyze_transcript` was invoked, and the Python return
value (`none` models the `except` path returning `None`). -/
structure QaTrace where
  effects : List Effect
  analyzerInvoked : Bool
  retval : Option (List Char)
deriving DecidableEq

/-- The literal returned on the no-usable-speech path. -/
def noSpeechReturn : List Char := "❌ No speech detected".data

/-- `wav_url.split("/")[-1] if "/" in wav_url else wav_url`. -/
def short_url (wav_url : List Char) : List Char :=
  if wav_url.contains '/' then (List.splitOn '/' wav_url).getLastD [] else wav_url

/-- The `reply_text` f-string of `process_wav_url`. -/
def reply_text (wav_url transcript analysis : List Char) : List Char :=
  "*QA Analysis for* `".data ++ short_url wav_url ++ "`\n\n*Transcript:*\n>>> ".data
    ++ truncate1500 transcript ++ "\n\n*Assessment:*\n".data ++ analysis

/-- `qa_bot.process_wav_url` (lines 201-267): download → transcribe →
threshold check → analyze → react/reply, a boundary `except` catching every
stage exception and returning `None`, and a `finally` that always unlinks
the temp file. -/
def process_wav_url (wav_url message_ts channel : List Char) (env : QaEnv) : QaTrace :=
  match env.downloadR with
  | Except.error _ => ⟨[Effect.unlink], false, none⟩
  | Except.ok _ =>
    match env.transcribeR with
    | Except.error _ => ⟨[Effect.unlink], false, none⟩
    | Except.ok transcript =>
      if transcript = [] ∨ (pyStrip transcript).length < 10 then
        let effs :=
          if env.analyzeOnly = false ∧ env.hasClient = true ∧ message_ts ≠ [] ∧ channel ≠ [] then
            [Effect.reactAdd "x".data]
          else []
        ⟨effs ++ [Effect.unlink], false, some noSpeechReturn⟩
      else
        match env.analyzeR with
        | Except.error _ => ⟨[Effect.unlink], true, none⟩
        | Except.ok analysis =>
          let grade_emojis := extract_grade_emojis analysis
          if env.analyzeOnly = false ∧ env.hasClient = true ∧ env.hasSay = true ∧
              message_ts ≠ [] ∧ channel ≠ [] then
            match env.sayR with
            | Except.error _ => ⟨grade_emojis.map Effect.reactAdd ++ [Effect.unlink], true, none⟩
            | Except.ok _ =>
              ⟨grade_emojis.map Effect.reactAdd
                 ++ [Effect.reply (reply_text wav_url transcript analysis) message_ts,
                     Effect.unlink],
               true, some analysis⟩
          else ⟨[Effect.unlink], true, some analysis⟩

end QaBot

/-- Python `s.endswith(pat)`. -/
def strEndsWith (pat s : List Char) : Bool :=
  strStartsWith pat.reverse s.reverse

namespace Extra

/-! The transcriber and event handler of `extra.py`. -/

/-- Result of one `recognizer.recognize_google(audio_data)` call: recognized
text, `sr.UnknownValueError` (no recognizable speech), or any other raised
exception. -/
inductive RecResult where
  | ok (text : List Char)
  | unknownValue
  | err (e : Err)
deriving DecidableEq

/-- Whether a recognizer call raised something other than
`UnknownValueError`. -/
def RecResult.isErr : RecResult → Bool
  | RecResult.err _ => true
  | _ => false

/-- Oracles for one `transcribe_wav` call: the clip's average loudness
`audio.dBFS`, `pydub.silence.split_on_silence` (as a function of the three
tunable parameters, returning abstract chunk handles), and the recognizer. -/
structure AudioEnv where
  dBFS : ℚ
  split_on_silence : Nat → ℚ → Nat → List Nat
  recognize_google : Nat → RecResult

/-- The chunk loop of `extra.transcribe_wav`: recognize each chunk,
appending recognized text, skipping `UnknownValueError` chunks, and letting
any other recognizer exception propagate. -/
def transcribeChunks (recognize : Nat → RecResult) : List Nat → Except Err (List (List Char))
  | [] => Except.ok []
  | c :: rest =>
    match recognize c with
    | RecResult.ok t => (transcribeChunks recognize rest).map (fun parts => t :: parts)
    | RecResult.unknownValue => transcribeChunks recognize rest
    | RecResult.err e => Except.error e

/-- `extra.transcribe_wav` (lines 83-110): split on silence with
`min_silence_len=500`, `silence_thresh=audio.dBFS - 14`, `keep_silence=250`,
recognize each chunk, and return `" ".join(transcript_parts).strip()`. -/
def transcribe_wav (env : AudioEnv) : Except Err (List Char) :=
  let speech_chunks := env.split_on_silence 500 (env.dBFS - 14) 250
  (transcribeChunks env.recognize_google speech_chunks).map
    (fun transcript_parts => pyStrip (pyJoin [' '] transcript_parts))

/-- The texts of the chunks the recognizer succeeds on, in chunk order
(specification-side closed form for the loop). -/
def recognizedTexts (recognize : Nat → RecResult) (chunks : List Nat) : List (List Char) :=
  chunks.filterMap (fun c =>
    match recognize c with
    | RecResult.ok t => some t
    | _ => none)

/-- The fields of one attached-file descriptor that `extra.handle_message`
reads (`hasDownloadUrl` models `url_private_download or url_private` being
non-empty). -/
structure FileInfo where
  name : List Char
  mimetype : List Char
  hasDownloadUrl : Bool

/-- Oracle results for processing one attached WAV file. -/
structure FileEnv where
  downloadR : Except Err Unit
  transcribeR : Except Err (List Char)
  analyzeR : Except Err (List Char)
  sayR : Except Err Unit

/-- Observable outcome of processing one attached file. -/
structure FileTrace where
  effects : List Effect
  analyzerInvoked : Bool
deriving DecidableEq

/-- The in-progress marker reaction name. -/
def hourglass : List Char := "hourglass_flowing_sand".data

/-- The `⚠️ Could not transcribe any speech from `...`.` reply. -/
def no_speech_reply (filename : List Char) : List Char :=
  "⚠️ Could not transcribe any speech from `".data ++ filename ++ "`.".data

/-- The `❌ Error analyzing `...`: ...` reply of the `except` branch. -/
def error_reply (filename e : List Char) : List Char :=
  "❌ Error analyzing `".data ++ filename ++ "`: ".data ++ e

/-- The `reply_text` f-string of `extra.handle_message`. -/
def reply_text (filename transcript analysis : List Char) : List Char :=
  "*QA Analysis for* `".data ++ filename ++ "`\n\n*Transcript:*\n>>> ".data
    ++ truncate1500 transcript ++ "\n\n*Assessment:*\n".data ++ analysis

/-- The `finally` block of the per-file loop: unlink the temp file and
remove the marker reaction, both failure-swallowed. -/
def cleanupEffects : List Effect := [Effect.unlink, Effect.reactRemove hourglass]

/-- The `.wav` filter: `f.get("name","").lower().endswith(".wav") or
f.get("mimetype","") == "audio/wav"`. -/
def isWavFile (f : FileInfo) : Bool :=
  strEndsWith ".wav".data (f.name.map Char.toLower) || f.mimetype == "audio/wav".data

/-- One iteration of the per-file loop of `extra.handle_message`
(lines 192-266): skip files without a download URL, add the marker
reaction, then `try` download → transcribe → empty check → analyze →
react/reply, with the `except` branch posting an error reply and the
`finally` block always cleaning up. -/
def processFile (f : FileInfo) (ts : List Char) (env : FileEnv) : FileTrace :=
  if f.hasDownloadUrl = false then ⟨[], false⟩
  else
    let ack := [Effect.reactAdd hourglass]
    match env.downloadR with
    | Except.error e => ⟨ack ++ [Effect.reply (error_reply f.name e) ts] ++ cleanupEffects, false⟩
    | Except.ok _ =>
      match env.transcribeR with
      | Except.error e =>
        ⟨ack ++ [Effect.reply (error_reply f.name e) ts] ++ cleanupEffects, false⟩
      | Except.ok transcript =>
        if transcript = [] then
          ⟨ack ++ [Effect.reply (no_speech_reply f.name) ts] ++ cleanupEffects, false⟩
        else
          match env.analyzeR with
          | Except.error e =>
            ⟨ack ++ [Effect.reply (error_reply f.name e) ts] ++ cleanupEffects, true⟩
          | Except.ok analysis =>
            let reacts := (extract_grade_emojis analysis).map Effect.reactAdd
            match env.sayR with
            | Except.error e =>
              ⟨ack ++ reacts ++ [Effect.reply (error_reply f.name e) ts] ++ cleanupEffects, true⟩
            | Except.ok _ =>
              ⟨ack ++ reacts ++ [Effect.reply (reply_text f.name transcript analysis) ts]
                 ++ cleanupEffects, true⟩

/-- The fields of a message event that `extra.handle_message` reads. -/
structure MsgEvent where
  channel : List Char
  ts : List Char
  files : List FileInfo

/-- `extra.handle_message`: channel filter, `.wav` file filter, then the
per-file loop (file `i` of the filtered list runs with oracle `envs i`). -/
def handle_message (qaChannelId : List Char) (ev : MsgEvent) (envs : Nat → FileEnv) :
    List FileTrace :=
  if qaChannelId ≠ [] ∧ ev.channel ≠ qaChannelId then []
  else
    let wav_files := ev.files.filter isWavFile
    if wav_files.isEmpty then []
    else wav_files.enum.map (fun ie => processFile ie.2 ev.ts (envs ie.1))

end Extra

namespace Main

/-! The transcription section of `main.py`'s `analyze_dialogue`
(lines 20-48), which uses the same silence-splitting constants but joins by
`full_transcript += chunk_text + " "` followed by a final `.strip()`. -/

/-- The chunk loop of `main.analyze_dialogue`. -/
def buildTranscript (recognize : Nat → Extra.RecResult) : List Nat → Except Err (List Char)
  | [] => Except.ok []
  | c :: rest =>
    match recognize c with
    | Extra.RecResult.ok t => (buildTranscript recognize rest).map (fun r => t ++ [' '] ++ r)
    | Extra.RecResult.unknownValue => buildTranscript recognize rest
    | Extra.RecResult.err e => Except.error e

/-- The join shape produced by the `+=` accumulation: every recognized text
followed by one trailing space (specification-side closed form). -/
def mainJoin : List (List Char) → List Char
  | [] => []
  | t :: r => t ++ [' '] ++ mainJoin r

/-- Split on silence (same constants as `extra.transcribe_wav`), run the
chunk loop, and strip the accumulated transcript. -/
def transcriptionSection (env : Extra.AudioEnv) : Except Err (List Char) :=
  let speech_chunks := env.split_on_silence 500 (env.dBFS - 14) 250
  (buildTranscript env.recognize_google speech_chunks).map pyStrip

end Main

/-! Concrete sanity checks of the embedding.  The regex evaluations below
agree with CPython's `re.findall` on the same patterns and inputs. -/

example : "ab".data = ['a', 'b'] := rfl
example : QaBot.extract_grade_emojis "💚 ok".data = ["green_heart".data] := by decide
example : QaBot.extract_grade_emojis "nothing".data = [] := by decide
example : Extra.extract_grade_emojis "💛🧡💛".data = ["yellow_heart".data, "orange_heart".data] := by decide
example : pyStrip "  ab ".data = "ab".data := by decide
example : List.splitOn '/' "a/b".data = [['a'], ['b']] := by decide
example : QaBot.extract_wav_urls "Check this call <https://x.example/call123.wav|recording.wav>".data
    = ["https://x.example/call123.wav".data] := by decide
example : QaBot.extract_wav_urls "audio at https://x.example/a.wav now".data
    = ["https://x.example/a.wav".data] := by decide
example : QaBot.extract_wav_urls "no audio here".data = [] := by decide
example : QaBot.extract_wav_urls "see HTTP://A.WAV ok".data = ["HTTP://A.WAV".data] := by decide
example : QaBot.extract_wav_urls "<https://a.wav|x> and https://b.wav".data
    = ["https://a.wav".data] := by decide
example : QaBot.findallBare "https://a.wav.wav x".data = ["https://a.wav.wav".data] := by decide
example : QaBot.findallBare "https://a.wavx https://b.wav".data
    = ["https://a.wav".data, "https://b.wav".data] := by decide
example : QaBot.findallSlack "<http://q.wav>tail https://c.wav".data = ["http://q.wav".data] := by decide
example : QaBot.findallBare "x http://a.wav|http://b.wav".data
    = ["http://a.wav".data, "http://b.wav".data] := by decide
example : QaBot.findallBare "HTTPS://UP.Wav".data = ["HTTPS://UP.Wav".data] := by decide
example : QaBot.findallSlack "<https://a.wav.wav|y>".data = ["https://a.wav.wav".data] := by decide

/-! Helper lemmas. -/

theorem exceptMap_ok {α β : Type} (f : α → β) (a : α) :
    Except.map f (Except.ok a : Except Err α) = Except.ok (f a) := rfl

theorem exceptMap_error {α β : Type} (f : α → β) (e : Err) :
    Except.map f (Except.error e : Except Err α) = Except.error e := rfl

theorem strStartsWith_iff (pat s : List Char) : strStartsWith pat s = true ↔ pat <+: s := by
  induction pat generalizing s with
  | nil => simp [strStartsWith]
  | cons a as ih =>
    cases s with
    | nil => simp [strStartsWith]
    | cons b bs =>
      simp only [strStartsWith, Bool.and_eq_true, beq_iff_eq, ih, List.cons_prefix_cons]

theorem strContains_iff (pat s : List Char) : strContains pat s = true ↔ pat <:+: s := by
  induction s with
  | nil => simp [strContains, strStartsWith_iff, List.infix_nil, List.prefix_nil]
  | cons c t ih => simp [strContains, strStartsWith_iff, ih, List.infix_cons_iff]

theorem mem_extractAux (a l : List Char) (m : List (List Char × List Char)) :
    l ∈ extractAux a m ↔ ∃ p, p ∈ m ∧ p.1 <:+: a ∧ p.2 = l := by
  induction m with
  | nil => simp [extractAux]
  | cons p rest ih =>
    simp only [extractAux]
    by_cases h : strContains p.1 a = true
    · rw [if_pos h]
      simp only [List.mem_cons, ih]
      constructor
      · rintro (rfl | ⟨q, hq, hinf, rfl⟩)
        · exact ⟨p, Or.inl rfl, (strContains_iff _ _).1 h, rfl⟩
        · exact ⟨q, Or.inr hq, hinf, rfl⟩
      · rintro ⟨q, (rfl | hq), hinf, rfl⟩
        · exact Or.inl rfl
        · exact Or.inr ⟨q, hq, hinf, rfl⟩
    · rw [if_neg h, ih]
      constructor
      · rintro ⟨q, hq, hinf, rfl⟩
        exact ⟨q, List.mem_cons_of_mem p hq, hinf, rfl⟩
      · rintro ⟨q, hq, hinf, rfl⟩
        rcases List.mem_cons.1 hq with rfl | hq
        · exact absurd ((strContains_iff _ _).2 hinf) h
        · exact ⟨q, hq, hinf, rfl⟩

theorem extractAux_sublist (a : List Char) (m : List (List Char × List Char)) :
    (extractAux a m).Sublist (m.map Prod.snd) := by
  induction m with
  | nil => simp [extractAux]
  | cons p rest ih =>
    simp only [extractAux, List.map_cons]
    by_cases h : strContains p.1 a = true
    · rw [if_pos h]; exact ih.cons₂ p.2
    · rw [if_neg h]; exact ih.cons p.2

/-- Claim C1: both grade extractors are pure functions of the analysis text
whose output holds exactly the labels of the glyphs occurring as substrings
of the text, each label at most once (no duplicates), glyphs not present
contributing nothing; determinism is immediate since each is a function. -/
theorem C1_grade_extractor (analysis : List Char) :
    ((QaBot.extract_grade_emojis analysis).Nodup ∧
      ∀ l, l ∈ QaBot.extract_grade_emojis analysis ↔
        ∃ p, p ∈ QaBot.GRADE_EMOJI_MAP ∧ p.1 <:+: analysis ∧ p.2 = l) ∧
    ((Extra.extract_grade_emojis analysis).Nodup ∧
      ∀ l, l ∈ Extra.extract_grade_emojis analysis ↔
        ∃ p, p ∈ Extra.GRADE_EMOJI_MAP ∧ p.1 <:+: analysis ∧ p.2 = l) := by
  refine ⟨⟨?_, fun l => mem_extractAux analysis l QaBot.GRADE_EMOJI_MAP⟩,
          ⟨?_, fun l => mem_extractAux analysis l Extra.GRADE_EMOJI_MAP⟩⟩
  · exact List.Nodup.sublist (extractAux_sublist analysis _) (by decide)
  · exact List.Nodup.sublist (extractAux_sublist analysis _) (by decide)

/-- Witness for C1 at a concrete analysis text. -/
theorem C1_grade_extractor_witness :
    (QaBot.extract_grade_emojis "💚🔥 flawless call".data).Nodup :=
  (C1_grade_extractor "💚🔥 flawless call".data).1.1

namespace QaBot

theorem containsCI_of_drop (pat s : List Char) (n : Nat)
    (h : ciPrefixOf pat (s.drop n) = true) : containsCI pat s = true := by
  induction s generalizing n with
  | nil => simpa [containsCI] using h
  | cons c t ih =>
    cases n with
    | zero =>
      simp only [List.drop_zero] at h
      simp [containsCI, h]
    | succ m => simp [containsCI, ih m (by simpa using h)]

theorem containsCI_tail (pat : List Char) (c : Char) (t : List Char)
    (h : containsCI pat (c :: t) = false) : containsCI pat t = false := by
  by_contra hn
  simp only [containsCI, Bool.or_eq_false_iff] at h
  exact hn (by simp [h.2])

theorem matchLitCI_some (lit s : List Char) (w : Nat) (h : matchLitCI lit s = some w) :
    ciPrefixOf lit s = true := by
  by_contra hn
  simp [matchLitCI, hn] at h

theorem plusTry_some (k : List Char → Option Nat) (s : List Char) (n r : Nat)
    (h : plusTry k s n = some r) : ∃ j r2, 1 ≤ j ∧ k (s.drop j) = some r2 := by
  induction n with
  | zero => simp [plusTry] at h
  | succ m ih =>
    rw [plusTry] at h
    cases hk : k (s.drop (m + 1)) with
    | none => rw [hk] at h; exact ih h
    | some r2 => exact ⟨m + 1, r2, by omega, hk⟩

theorem matchSlackAt_wav (s : List Char) (p : Nat × List Char)
    (h : matchSlackAt s = some p) : containsCI wavLit s = true := by
  cases s with
  | nil => simp [matchSlackAt] at h
  | cons c rest =>
    simp only [matchSlackAt] at h
    split at h
    · split at h
      · exact absurd h (by simp)
      · rename_i schemeLen hms
        split at h
        · exact absurd h (by simp)
        · rename_i bodyLen hpb
          obtain ⟨j, r2, hj1, hk⟩ := plusTry_some _ _ _ _ hpb
          cases hlit : matchLitCI wavLit ((rest.drop schemeLen).drop j) with
          | none => rw [hlit] at hk; exact absurd hk (by simp)
          | some w =>
            have hpre := matchLitCI_some _ _ _ hlit
            rw [List.drop_drop] at hpre
            have hr : containsCI wavLit rest = true := containsCI_of_drop _ _ _ hpre
            simp [containsCI, hr]
    · exact absurd h (by simp)

theorem matchBareAt_wav (s : List Char) (len : Nat)
    (h : matchBareAt s = some len) : containsCI wavLit s = true := by
  simp only [matchBareAt] at h
  split at h
  · exact absurd h (by simp)
  · rename_i schemeLen hms
    split at h
    · exact absurd h (by simp)
    · rename_i bodyLen hpb
      obtain ⟨j, r2, hj1, hk⟩ := plusTry_some _ _ _ _ hpb
      have hpre := matchLitCI_some _ _ _ hk
      rw [List.drop_drop] at hpre
      exact containsCI_of_drop _ _ _ hpre

theorem matchSlackAt_none (s : List Char) (h : containsCI wavLit s = false) :
    matchSlackAt s = none := by
  cases hm : matchSlackAt s with
  | none => rfl
  | some p => exact absurd (matchSlackAt_wav s p hm) (by simp [h])

theorem matchBareAt_none (s : List Char) (h : containsCI wavLit s = false) :
    matchBareAt s = none := by
  cases hm : matchBareAt s with
  | none => rfl
  | some len => exact absurd (matchBareAt_wav s len hm) (by simp [h])

theorem findallSlackAux_nil (fuel : Nat) (s : List Char)
    (h : containsCI wavLit s = false) : findallSlackAux fuel s = [] := by
  induction fuel generalizing s with
  | zero => rfl
  | succ m ih =>
    have hm := matchSlackAt_none s h
    cases s with
    | nil => simp [findallSlackAux, hm]
    | cons c t => simp [findallSlackAux, hm, ih t (containsCI_tail _ _ _ h)]

theorem findallBareAux_nil (fuel : Nat) (s : List Char)
    (h : containsCI wavLit s = false) : findallBareAux fuel s = [] := by
  induction fuel generalizing s with
  | zero => rfl
  | succ m ih =>
    have hm := matchBareAt_none s h
    cases s with
    | nil => simp [findallBareAux, hm]
    | cons c t => simp [findallBareAux, hm, ih t (containsCI_tail _ _ _ h)]

theorem extract_wav_urls_empty (text : List Char) (h : containsCI wavLit text = false) :
    extract_wav_urls text = [] := by
  simp [extract_wav_urls, findallSlack, findallBare,
    findallSlackAux_nil text.length text h, findallBareAux_nil text.length text h]

theorem extract_wav_urls_slack (text : List Char) (h : findallSlack text ≠ []) :
    extract_wav_urls text = findallSlack text := by
  simp only [extract_wav_urls]
  rw [if_pos]
  simpa [List.isEmpty_iff] using h

end QaBot

/-- Claim C5, amended: the extractor prefers the markup-wrapped form, the two
concrete extractions of the spec hold, and any input with no
case-insensitive ".wav" substring yields the empty list.  (The claim as
stated — no ".wav" substring implies empty output — fails because both
patterns are compiled with `re.IGNORECASE`; see the counterexample.) -/
theorem C5_wav_url_extraction :
    QaBot.extract_wav_urls "Check this call <https://x.example/call123.wav|recording.wav>".data
      = ["https://x.example/call123.wav".data] ∧
    QaBot.extract_wav_urls "audio at https://x.example/a.wav now".data
      = ["https://x.example/a.wav".data] ∧
    (∀ text, QaBot.containsCI QaBot.wavLit text = false → QaBot.extract_wav_urls text = []) ∧
    (∀ text, QaBot.findallSlack text ≠ [] →
      QaBot.extract_wav_urls text = QaBot.findallSlack text) :=
  ⟨by decide, by decide, QaBot.extract_wav_urls_empty, QaBot.extract_wav_urls_slack⟩

/-- Witness for C5 at a concrete input with no ".wav" in any casing. -/
theorem C5_wav_url_extraction_witness :
    QaBot.extract_wav_urls "no audio reference here".data = [] :=
  C5_wav_url_extraction.2.2.1 "no audio reference here".data (by decide)

/-- Counterexample to claim C5 as stated: `"see HTTP://A.WAV ok"` contains no
".wav" substring, yet extraction returns a URL, because the patterns carry
`re.IGNORECASE`. -/
theorem C5_wav_url_extraction_cex :
    strContains ".wav".data "see HTTP://A.WAV ok".data = false ∧
    QaBot.extract_wav_urls "see HTTP://A.WAV ok".data = ["HTTP://A.WAV".data] :=
  ⟨by decide, by decide⟩

namespace QaBot

theorem firstWavRun_eq (ms : List MsgEvent) :
    firstWavRun ms =
      match ms.find? (fun m => !(extract_wav_urls m.text).isEmpty) with
      | some m => (extract_wav_urls m.text).take 1
      | none => [] := by
  induction ms with
  | nil => rfl
  | cons m rest ih =>
    cases hu : extract_wav_urls m.text with
    | nil => simp [firstWavRun, hu, List.find?, ih]
    | cons u us => simp [firstWavRun, hu, List.find?]

end QaBot

/-- Claim C9: the URL-based pipeline starts at most one run per inbound
message — only the first extracted URL is handed to `process_wav_url` — and
the startup-replay path starts at most one run, for the first URL of the
first (most recent) matching message of the fetched history (fetched with
`limit=20`). -/
theorem C9_single_run_per_message :
    (∀ qid ev, (QaBot.handle_message qid ev).length ≤ 1 ∧
      ((qid = [] ∨ ev.channel = qid) →
        QaBot.handle_message qid ev = (QaBot.extract_wav_urls ev.text).take 1)) ∧
    (∀ fetch ch, (QaBot.process_latest_message fetch ch).length ≤ 1 ∧
      (∀ ms, fetch ch 20 = Except.ok ms →
        QaBot.process_latest_message fetch ch =
          match ms.find? (fun m => !(QaBot.extract_wav_urls m.text).isEmpty) with
          | some m => (QaBot.extract_wav_urls m.text).take 1
          | none => [])) := by
  constructor
  · intro qid ev
    constructor
    · simp only [QaBot.handle_message]
      split
      · simp
      · split <;> simp
    · intro hpass
      simp only [QaBot.handle_message]
      rw [if_neg (by rcases hpass with h | h <;> simp [h])]
      cases hu : QaBot.extract_wav_urls ev.text <;> simp [hu]
  · intro fetch ch
    constructor
    · simp only [QaBot.process_latest_message]
      cases hf : fetch ch 20 with
      | error e => simp
      | ok ms =>
        dsimp only
        rw [QaBot.firstWavRun_eq]
        split
        · exact (List.length_take_le 1 _)
        · simp
    · intro ms hf
      simp only [QaBot.process_latest_message]
      rw [hf]
      dsimp only
      rw [QaBot.firstWavRun_eq]

/-- Witness for C9: a concrete two-URL message starts exactly one run, on
the first URL. -/
theorem C9_single_run_per_message_witness :
    QaBot.handle_message []
      ⟨"C9X".data, "u".data, "see https://a.example/x.wav https://b.example/y.wav".data,
        "1".data⟩
      = ["https://a.example/x.wav".data] := by
  have h := (C9_single_run_per_message.1 []
      ⟨"C9X".data, "u".data, "see https://a.example/x.wav https://b.example/y.wav".data,
        "1".data⟩).2 (Or.inl rfl)
  rw [h]; decide

/-- Claim C10: the configured channel restriction is honored only when it
starts with the character C and is longer than 5 characters; every other
value is sanitized to the empty restriction, under which messages from all
channels are processed identically. -/
theorem C10_channel_sanitization (raw : List Char) :
    (("C".data <+: raw ∧ raw.length > 5) → QaBot.sanitize_channel raw = raw) ∧
    (¬("C".data <+: raw ∧ raw.length > 5) → QaBot.sanitize_channel raw = [] ∧
      ∀ ev, QaBot.handle_message (QaBot.sanitize_channel raw) ev
          = (QaBot.extract_wav_urls ev.text).take 1) := by
  constructor
  · rintro ⟨h1, h2⟩
    simp only [QaBot.sanitize_channel]
    rw [if_pos ⟨(strStartsWith_iff _ _).2 h1, h2⟩]
  · intro hn
    have hz : QaBot.sanitize_channel raw = [] := by
      simp only [QaBot.sanitize_channel]
      rw [if_neg (fun hc => hn ⟨(strStartsWith_iff _ _).1 hc.1, hc.2⟩)]
    refine ⟨hz, fun ev => ?_⟩
    rw [hz]
    simp only [QaBot.handle_message]
    rw [if_neg (by simp)]
    cases hu : QaBot.extract_wav_urls ev.text <;> simp [hu]

/-- Witness for C10 at a concrete non-conforming configured value. -/
theorem C10_channel_sanitization_witness :
    QaBot.sanitize_channel "X1234567".data = [] :=
  ((C10_channel_sanitization "X1234567".data).2
    (fun hc => by exact absurd ((strStartsWith_iff _ _).2 hc.1) (by decide))).1

/-- Claim C4: on every exit path — success, no-speech, and an exception in
any stage including emission — the run's `finally` block unlinks the
temporary file (deletion errors are swallowed by `try/except: pass` in both
sources); in the upload pipeline a temp file exists exactly when the file
carried a download URL. -/
theorem C4_temp_cleanup :
    (∀ u ts ch env, Effect.unlink ∈ (QaBot.process_wav_url u ts ch env).effects) ∧
    (∀ f ts env, f.hasDownloadUrl = true →
      Effect.unlink ∈ (Extra.processFile f ts env).effects) := by
  constructor
  · intro u ts ch env
    cases hd : env.downloadR with
    | error e => simp [QaBot.process_wav_url, hd]
    | ok _ =>
      cases ht : env.transcribeR with
      | error e => simp [QaBot.process_wav_url, hd, ht]
      | ok t =>
        by_cases hshort : (t = [] ∨ (pyStrip t).length < 10)
        · simp only [QaBot.process_wav_url, hd, ht, if_pos hshort]
          split <;> simp
        · cases ha : env.analyzeR with
          | error e => simp [QaBot.process_wav_url, hd, ht, if_neg hshort, ha]
          | ok a =>
            simp only [QaBot.process_wav_url, hd, ht, if_neg hshort, ha]
            split
            · cases hs : env.sayR <;> simp [hs]
            · simp
  · intro f ts env hurl
    cases hd : env.downloadR with
    | error e => simp [Extra.processFile, hurl, hd, Extra.cleanupEffects]
    | ok _ =>
      cases ht : env.transcribeR with
      | error e => simp [Extra.processFile, hurl, hd, ht, Extra.cleanupEffects]
      | ok t =>
        by_cases hempty : t = []
        · simp [Extra.processFile, hurl, hd, ht, hempty, Extra.cleanupEffects]
        · cases ha : env.analyzeR with
          | error e => simp [Extra.processFile, hurl, hd, ht, hempty, ha, Extra.cleanupEffects]
          | ok a =>
            cases hs : env.sayR <;>
              simp [Extra.processFile, hurl, hd, ht, hempty, ha, hs, Extra.cleanupEffects]

/-- Witness for C4 at a concrete upload-pipeline run. -/
theorem C4_temp_cleanup_witness :
    Effect.unlink ∈ (Extra.processFile ⟨"a.wav".data, [], true⟩ "1".data
      ⟨Except.ok (), Except.ok [], Except.ok [], Except.ok ()⟩).effects :=
  C4_temp_cleanup.2 ⟨"a.wav".data, [], true⟩ "1".data
    ⟨Except.ok (), Except.ok [], Except.ok [], Except.ok ()⟩ rfl

/-- Claim C2, amended: an unusable transcript is a terminal non-error
outcome in both pipelines, with no grade reactions and cleanup still run —
but the two pipelines differ from the claim as stated: the URL pipeline
(threshold: stripped length under 10) adds at most the unparseable "x"
marker and posts NO reply, while the upload pipeline (condition: empty
transcript only) posts exactly one could-not-transcribe reply and no
marker beyond the hourglass acknowledgement. -/
theorem C2_no_speech_terminal :
    (∀ u ts ch env transcript, env.downloadR = Except.ok () →
      env.transcribeR = Except.ok transcript → (pyStrip transcript).length < 10 →
      (QaBot.process_wav_url u ts ch env).retval = some QaBot.noSpeechReturn ∧
      (QaBot.process_wav_url u ts ch env).analyzerInvoked = false ∧
      repliesOf (QaBot.process_wav_url u ts ch env).effects = [] ∧
      (∀ n, n ∈ reactAdds (QaBot.process_wav_url u ts ch env).effects → n = "x".data) ∧
      Effect.unlink ∈ (QaBot.process_wav_url u ts ch env).effects) ∧
    (∀ f ts env, f.hasDownloadUrl = true → env.downloadR = Except.ok () →
      env.transcribeR = Except.ok [] →
      (Extra.processFile f ts env).analyzerInvoked = false ∧
      repliesOf (Extra.processFile f ts env).effects = [(Extra.no_speech_reply f.name, ts)] ∧
      reactAdds (Extra.processFile f ts env).effects = [Extra.hourglass] ∧
      Effect.unlink ∈ (Extra.processFile f ts env).effects ∧
      Effect.reactRemove Extra.hourglass ∈ (Extra.processFile f ts env).effects) := by
  constructor
  · intro u ts ch env t hd ht hlen
    simp only [QaBot.process_wav_url, hd, ht, if_pos (Or.inr hlen)]
    refine ⟨by trivial, by trivial, ?_, ?_, ?_⟩ <;> split <;> simp [repliesOf, reactAdds]
  · intro f ts env hurl hd ht
    simp [Extra.processFile, hurl, hd, ht, Extra.cleanupEffects, repliesOf, reactAdds]

/-- Witness for C2 at a concrete empty-transcript run of each pipeline. -/
theorem C2_no_speech_terminal_witness :
    (QaBot.process_wav_url "https://a/b.wav".data "1".data "C123456".data
        ⟨false, true, true, Except.ok (), Except.ok [], Except.ok [], Except.ok ()⟩).retval
      = some QaBot.noSpeechReturn :=
  (C2_no_speech_terminal.1 "https://a/b.wav".data "1".data "C123456".data
    ⟨false, true, true, Except.ok (), Except.ok [], Except.ok [], Except.ok ()⟩
    [] rfl rfl (by decide)).1

/-- Counterexample to claim C2 as stated: a production-mode URL-pipeline run
with `say`/`client` available and an empty transcript posts ZERO replies —
not "exactly one could-not-transcribe reply". -/
theorem C2_no_speech_terminal_cex :
    repliesOf (QaBot.process_wav_url "https://a/b.wav".data "1".data "C123456".data
      ⟨false, true, true, Except.ok (), Except.ok [], Except.ok [], Except.ok ()⟩).effects
      = [] := by decide

/-- Claim C3, amended: every exception raised in the download, transcription
or analysis stage is caught at the run boundary (the run still completes
its cleanup; nothing propagates to the listener, whose per-file loop keeps
processing the remaining files) — but only the upload pipeline posts a
user-visible failure notice naming the file and the error; the URL
pipeline logs silently, returns `None`, and posts no reply even when `say`
is available. -/
theorem C3_exception_boundary :
    (∀ u ts ch env e,
      (env.downloadR = Except.error e ∨
        (env.downloadR = Except.ok () ∧ env.transcribeR = Except.error e) ∨
        (∃ t, env.downloadR = Except.ok () ∧ env.transcribeR = Except.ok t ∧
          ¬(t = [] ∨ (pyStrip t).length < 10) ∧ env.analyzeR = Except.error e)) →
      (QaBot.process_wav_url u ts ch env).retval = none ∧
      repliesOf (QaBot.process_wav_url u ts ch env).effects = [] ∧
      Effect.unlink ∈ (QaBot.process_wav_url u ts ch env).effects) ∧
    (∀ f ts env e, f.hasDownloadUrl = true →
      (env.downloadR = Except.error e ∨
        (env.downloadR = Except.ok () ∧ env.transcribeR = Except.error e) ∨
        (∃ t, env.downloadR = Except.ok () ∧ env.transcribeR = Except.ok t ∧ t ≠ [] ∧
          env.analyzeR = Except.error e)) →
      repliesOf (Extra.processFile f ts env).effects = [(Extra.error_reply f.name e, ts)] ∧
      Effect.unlink ∈ (Extra.processFile f ts env).effects ∧
      Effect.reactRemove Extra.hourglass ∈ (Extra.processFile f ts env).effects) ∧
    (∀ qid ev envs, (qid = [] ∨ ev.channel = qid) →
      (Extra.handle_message qid ev envs).length = (ev.files.filter Extra.isWavFile).length) := by
  refine ⟨?_, ?_, ?_⟩
  · intro u ts ch env e hstage
    rcases hstage with hd | ⟨hd, ht⟩ | ⟨t, hd, ht, hlong, ha⟩
    · simp [QaBot.process_wav_url, hd, repliesOf]
    · simp [QaBot.process_wav_url, hd, ht, repliesOf]
    · simp [QaBot.process_wav_url, hd, ht, if_neg hlong, ha, repliesOf]
  · intro f ts env e hurl hstage
    rcases hstage with hd | ⟨hd, ht⟩ | ⟨t, hd, ht, hne, ha⟩
    · simp [Extra.processFile, hurl, hd, Extra.cleanupEffects, repliesOf]
    · simp [Extra.processFile, hurl, hd, ht, Extra.cleanupEffects, repliesOf]
    · simp [Extra.processFile, hurl, hd, ht, hne, ha, Extra.cleanupEffects, repliesOf]
  · intro qid ev envs hpass
    simp only [Extra.handle_message]
    rw [if_neg (by rcases hpass with h | h <;> simp [h])]
    by_cases he : (ev.files.filter Extra.isWavFile).isEmpty
    · rw [if_pos he]
      rw [List.isEmpty_iff] at he
      simp [he]
    · rw [if_neg he]
      simp [List.enum_length]

/-- Witness for C3: a concrete upload-pipeline run whose download raises
posts exactly one error reply naming the file and the error. -/
theorem C3_exception_boundary_witness :
    repliesOf (Extra.processFile ⟨"call.wav".data, [], true⟩ "1".data
      ⟨Except.error "HTTP 404".data, Except.ok [], Except.ok [], Except.ok ()⟩).effects
      = [(Extra.error_reply "call.wav".data "HTTP 404".data, "1".data)] :=
  (C3_exception_boundary.2.1 ⟨"call.wav".data, [], true⟩ "1".data
    ⟨Except.error "HTTP 404".data, Except.ok [], Except.ok [], Except.ok ()⟩
    "HTTP 404".data rfl (Or.inl rfl)).1

/-- Counterexample to claim C3 as stated: a production-mode URL-pipeline run
with `say` available whose download stage raises posts NO user-visible
failure notice (the boundary `except` only logs and returns `None`). -/
theorem C3_exception_boundary_cex :
    (QaBot.process_wav_url "https://a/b.wav".data "1".data "C123456".data
      ⟨false, true, true, Except.error "boom".data, Except.ok [], Except.ok [],
        Except.ok ()⟩).retval = none ∧
    repliesOf (QaBot.process_wav_url "https://a/b.wav".data "1".data "C123456".data
      ⟨false, true, true, Except.error "boom".data, Except.ok [], Except.ok [],
        Except.ok ()⟩).effects = [] := by
  exact ⟨rfl, rfl⟩

/-- Claim C7, amended: both pipelines treat "no speech detected" as success
(a value is returned / the loop continues; no exception), but the
minimum-length threshold of 10 characters on the stripped transcript exists
only in the URL pipeline; the upload pipeline takes its no-speech path
exactly when the transcript is empty and invokes the analyzer for every
non-empty transcript, however short. -/
theorem C7_no_speech_threshold :
    (∀ u ts ch env t, env.downloadR = Except.ok () → env.transcribeR = Except.ok t →
      (pyStrip t).length < 10 →
      (QaBot.process_wav_url u ts ch env).analyzerInvoked = false ∧
      (QaBot.process_wav_url u ts ch env).retval = some QaBot.noSpeechReturn) ∧
    (∀ f ts env, f.hasDownloadUrl = true → env.downloadR = Except.ok () →
      env.transcribeR = Except.ok [] →
      (Extra.processFile f ts env).analyzerInvoked = false) ∧
    (∀ f ts env t, f.hasDownloadUrl = true → env.downloadR = Except.ok () →
      env.transcribeR = Except.ok t → t ≠ [] →
      (Extra.processFile f ts env).analyzerInvoked = true) := by
  refine ⟨?_, ?_, ?_⟩
  · intro u ts ch env t hd ht hlen
    simp only [QaBot.process_wav_url, hd, ht, if_pos (Or.inr hlen)]
    exact ⟨by trivial, by trivial⟩
  · intro f ts env hurl hd ht
    simp [Extra.processFile, hurl, hd, ht]
  · intro f ts env t hurl hd ht hne
    cases ha : env.analyzeR with
    | error e => simp [Extra.processFile, hurl, hd, ht, hne, ha]
    | ok a => cases hs : env.sayR <;> simp [Extra.processFile, hurl, hd, ht, hne, ha, hs]

/-- Witness for C7 at a concrete short transcript in the URL pipeline. -/
theorem C7_no_speech_threshold_witness :
    (QaBot.process_wav_url "u".data "1".data "C123456".data
      ⟨true, false, false, Except.ok (), Except.ok "hi there".data, Except.ok [],
        Except.ok ()⟩).analyzerInvoked = false :=
  (C7_no_speech_threshold.1 "u".data "1".data "C123456".data
    ⟨true, false, false, Except.ok (), Except.ok "hi there".data, Except.ok [],
      Except.ok ()⟩ "hi there".data rfl rfl (by decide)).1

/-- Counterexample to claim C7 as stated: in the upload pipeline a two-
character transcript — far below the ~10-character threshold — still
reaches the analyzer instead of the no-speech path. -/
theorem C7_no_speech_threshold_cex :
    (pyStrip "hi".data).length < 10 ∧
    (Extra.processFile ⟨"a.wav".data, [], true⟩ "1".data
      ⟨Except.ok (), Except.ok "hi".data, Except.ok "💚 fine".data,
        Except.ok ()⟩).analyzerInvoked = true :=
  ⟨by decide, by decide⟩

/-- Claim C8: an analysis containing zero known glyphs yields an empty
grade set, zero grade reactions, and the threaded reply carrying the full
analysis text is still posted with no exception (the URL pipeline posts it
in production mode with `client`/`say` and non-empty timestamp/channel; the
upload pipeline always). -/
theorem C8_indeterminate_grade :
    (∀ u ts ch env t a, env.downloadR = Except.ok () → env.transcribeR = Except.ok t →
      ¬(t = [] ∨ (pyStrip t).length < 10) → env.analyzeR = Except.ok a →
      QaBot.extract_grade_emojis a = [] →
      env.analyzeOnly = false → env.hasClient = true → env.hasSay = true →
      ts ≠ [] → ch ≠ [] → env.sayR = Except.ok () →
      reactAdds (QaBot.process_wav_url u ts ch env).effects = [] ∧
      repliesOf (QaBot.process_wav_url u ts ch env).effects
        = [(QaBot.reply_text u t a, ts)] ∧
      a <:+ QaBot.reply_text u t a ∧
      (QaBot.process_wav_url u ts ch env).retval = some a) ∧
    (∀ f ts env t a, f.hasDownloadUrl = true → env.downloadR = Except.ok () →
      env.transcribeR = Except.ok t → t ≠ [] → env.analyzeR = Except.ok a →
      Extra.extract_grade_emojis a = [] → env.sayR = Except.ok () →
      reactAdds (Extra.processFile f ts env).effects = [Extra.hourglass] ∧
      repliesOf (Extra.processFile f ts env).effects
        = [(Extra.reply_text f.name t a, ts)] ∧
      a <:+ Extra.reply_text f.name t a) := by
  constructor
  · intro u ts ch env t a hd ht hlong ha hglyph hao hcl hsy hts hch hsay
    have hcond : env.analyzeOnly = false ∧ env.hasClient = true ∧ env.hasSay = true ∧
        ts ≠ [] ∧ ch ≠ [] := ⟨hao, hcl, hsy, hts, hch⟩
    simp only [QaBot.process_wav_url, hd, ht, if_neg hlong, ha, if_pos hcond, hsay, hglyph]
    refine ⟨by simp [reactAdds], by simp [repliesOf], ?_, by trivial⟩
    simp only [QaBot.reply_text]
    exact List.suffix_append _ _
  · intro f ts env t a hurl hd ht hne ha hglyph hsay
    simp only [Extra.processFile, hurl, hd, ht, ha, hsay, hglyph]
    rw [if_neg (by simp [hurl]), if_neg hne]
    refine ⟨by simp [reactAdds, Extra.cleanupEffects],
      by simp [repliesOf, Extra.cleanupEffects], ?_⟩
    simp only [Extra.reply_text]
    exact List.suffix_append _ _

/-- Witness for C8 at a concrete glyph-free analysis in the URL pipeline. -/
theorem C8_indeterminate_grade_witness :
    reactAdds (QaBot.process_wav_url "https://h/call.wav".data "1".data "C123456".data
      ⟨false, true, true, Except.ok (), Except.ok "hello hello caller".data,
        Except.ok "no recognizable glyph".data, Except.ok ()⟩).effects = [] :=
  (C8_indeterminate_grade.1 "https://h/call.wav".data "1".data "C123456".data
    ⟨false, true, true, Except.ok (), Except.ok "hello hello caller".data,
      Except.ok "no recognizable glyph".data, Except.ok ()⟩
    "hello hello caller".data "no recognizable glyph".data
    rfl rfl (by decide) rfl (by decide) rfl rfl rfl (by decide) (by decide) rfl).1

namespace Extra

theorem transcribeChunks_ok (recognize : Nat → RecResult) (chunks : List Nat)
    (h : ∀ c ∈ chunks, (recognize c).isErr = false) :
    transcribeChunks recognize chunks = Except.ok (recognizedTexts recognize chunks) := by
  induction chunks with
  | nil => rfl
  | cons c rest ih =>
    have hrest : ∀ c2 ∈ rest, (recognize c2).isErr = false :=
      fun c2 hc2 => h c2 (List.mem_cons_of_mem _ hc2)
    cases hr : recognize c with
    | ok t => simp [transcribeChunks, recognizedTexts, hr, ih hrest, exceptMap_ok]
    | unknownValue => simp [transcribeChunks, recognizedTexts, hr, ih hrest]
    | err e =>
      have := h c (List.mem_cons_self _ _)
      rw [hr] at this
      simp [RecResult.isErr] at this

end Extra

namespace Main

theorem buildTranscript_eq (recognize : Nat → Extra.RecResult) (chunks : List Nat) :
    buildTranscript recognize chunks =
      (Extra.transcribeChunks recognize chunks).map mainJoin := by
  induction chunks with
  | nil => rfl
  | cons c rest ih =>
    cases hr : recognize c with
    | ok t =>
      simp only [buildTranscript, Extra.transcribeChunks, hr, ih]
      cases hE : Extra.transcribeChunks recognize rest <;>
        simp [mainJoin, exceptMap_ok, exceptMap_error]
    | unknownValue => simp [buildTranscript, Extra.transcribeChunks, hr, ih]
    | err e => simp [buildTranscript, Extra.transcribeChunks, hr, exceptMap_error]

theorem mainJoin_eq (ps : List (List Char)) :
    mainJoin ps = pyJoin [' '] ps ++ (if ps.isEmpty then [] else [' ']) := by
  induction ps with
  | nil => rfl
  | cons t r ih =>
    cases r with
    | nil => simp [mainJoin, pyJoin]
    | cons t2 r2 =>
      have hstep : mainJoin (t :: t2 :: r2) = t ++ [' '] ++ mainJoin (t2 :: r2) := rfl
      rw [hstep, ih]
      simp [pyJoin, List.append_assoc]

end Main

theorem pyStrip_append_space (x : List Char) : pyStrip (x ++ [' ']) = pyStrip x := by
  simp [pyStrip, List.reverse_append, List.dropWhile_cons, isPySpace]

theorem transcriptionSection_eq (env : Extra.AudioEnv) :
    Main.transcriptionSection env = Extra.transcribe_wav env := by
  simp only [Main.transcriptionSection, Extra.transcribe_wav, Main.buildTranscript_eq]
  cases hE : Extra.transcribeChunks env.recognize_google
      (env.split_on_silence 500 (env.dBFS - 14) 250) with
  | error e => simp [exceptMap_error]
  | ok parts =>
    simp only [exceptMap_ok]
    cases parts with
    | nil => rfl
    | cons p r => simp [Main.mainJoin_eq, pyStrip_append_space]

/-- Claim C6: the chunked strategy splits on silence with
`min_silence_len=500`, `silence_thresh = dBFS - 14`, `keep_silence=250`
(and depends on the splitter only through its value at those arguments);
chunks with no recognizable speech are skipped without raising; the
recognized texts are joined with single spaces in chunk order and the
result is stripped; and `main.py`'s accumulate-then-strip variant produces
exactly the same transcript. -/
theorem C6_chunked_transcription :
    (∀ env : Extra.AudioEnv,
      (∀ c ∈ env.split_on_silence 500 (env.dBFS - 14) 250,
        (env.recognize_google c).isErr = false) →
      Extra.transcribe_wav env = Except.ok (pyStrip (pyJoin [' ']
        (Extra.recognizedTexts env.recognize_google
          (env.split_on_silence 500 (env.dBFS - 14) 250))))) ∧
    (∀ (d : ℚ) (f g : Nat → ℚ → Nat → List Nat) (rec : Nat → Extra.RecResult),
      f 500 (d - 14) 250 = g 500 (d - 14) 250 →
      Extra.transcribe_wav ⟨d, f, rec⟩ = Extra.transcribe_wav ⟨d, g, rec⟩) ∧
    (∀ env : Extra.AudioEnv, Main.transcriptionSection env = Extra.transcribe_wav env) := by
  refine ⟨?_, ?_, transcriptionSection_eq⟩
  · intro env h
    simp [Extra.transcribe_wav, Extra.transcribeChunks_ok _ _ h, exceptMap_ok]
  · intro d f g rec h
    simp [Extra.transcribe_wav, h]

/-- Witness for C6: a three-chunk clip whose middle chunk is unintelligible
transcribes to the space-joined texts of the other two. -/
theorem C6_chunked_transcription_witness :
    Extra.transcribe_wav ⟨-20, fun _ _ _ => [0, 1, 2],
      fun c => if c = 0 then Extra.RecResult.ok "hello".data
        else if c = 1 then Extra.RecResult.unknownValue
        else Extra.RecResult.ok "world".data⟩ = Except.ok "hello world".data := by
  have h := C6_chunked_transcription.1 ⟨-20, fun _ _ _ => [0, 1, 2],
    fun c => if c = 0 then Extra.RecResult.ok "hello".data
      else if c = 1 then Extra.RecResult.unknownValue
      else Extra.RecResult.ok "world".data⟩ (by decide)
  rw [h]
  rfl
